import Mathlib

/-!
# Verification of the cyclical-profile aggregation core

Shallow embedding of the `gold` package's profile builders, metric
primitives, session classifier, composite averager and seasonality
calculator, with theorems settling the specification's claims about them.

Numeric bar data is embedded in `ℚ`; timestamps are embedded as civil
dates (plus an hour for the hourly session feed).  Pandas operations are
embedded explicitly: `groupby` (sorted distinct keys), left `merge` with
`fillna(0)`, `sort_values`, `tail(n).mean()` transforms, `drop_duplicates`.
-/

set_option autoImplicit false

namespace Gold

/-! ## Civil-calendar primitives

The source relies on pandas `Timestamp` accessors (`dt.year`, `dt.month`,
`dt.day`, `dt.dayofyear`, `dt.is_leap_year`, `dt.isocalendar().week`).
These follow the proleptic Gregorian calendar and ISO 8601, embedded here
directly. -/

/-- Gregorian leap-year rule (pandas `dt.is_leap_year`). -/
def isLeap (y : Nat) : Bool :=
  y % 4 = 0 && (y % 100 != 0 || y % 400 = 0)

/-- Number of days of month `m` (1..12); 0 for an invalid month index. -/
def monthDays (leap : Bool) (m : Nat) : Nat :=
  match m with
  | 1 => 31 | 2 => if leap then 29 else 28 | 3 => 31 | 4 => 30
  | 5 => 31 | 6 => 30 | 7 => 31 | 8 => 31
  | 9 => 30 | 10 => 31 | 11 => 30 | 12 => 31
  | _ => 0

/-- Ordinal day within the year (pandas `dt.dayofyear`), as a function of
the leap flag so that bounded case analysis over months and days covers
every year. -/
def doyAux (leap : Bool) (m d : Nat) : Nat :=
  (List.range (m - 1)).foldl (fun acc i => acc + monthDays leap (i + 1)) 0 + d

/-- A calendar date as pandas exposes it through `dt.year/month/day`. -/
structure Date where
  year  : Nat
  month : Nat
  day   : Nat
deriving DecidableEq, Repr

/-- `dt.dayofyear` of a date. -/
def Date.doy (dt : Date) : Nat := doyAux (isLeap dt.year) dt.month dt.day

/-- A date is valid when its month and day are within calendar bounds. -/
def Date.Valid (dt : Date) : Prop :=
  1 ≤ dt.month ∧ dt.month ≤ 12 ∧ 1 ≤ dt.day ∧
    dt.day ≤ monthDays (isLeap dt.year) dt.month

instance (dt : Date) : Decidable dt.Valid := by
  unfold Date.Valid; infer_instance

/-- Timestamp comparison (pandas compares timestamps chronologically,
i.e. lexicographically on year, month, day). -/
def dateLe (a b : Date) : Bool :=
  a.year < b.year ||
    (a.year = b.year &&
      (a.month < b.month || (a.month = b.month && a.day ≤ b.day)))

/-- Rata-die ordinal: day 1 is Jan 1 of year 1 (a Monday) in the
proleptic Gregorian calendar. -/
def rataDie (dt : Date) : Nat :=
  365 * (dt.year - 1) + (dt.year - 1) / 4 - (dt.year - 1) / 100 +
    (dt.year - 1) / 400 + dt.doy

/-- ISO weekday, 1 = Monday .. 7 = Sunday. -/
def isoWeekday (dt : Date) : Nat := (rataDie dt - 1) % 7 + 1

/-- Number of ISO weeks of a year: 53 iff Jan 1 falls on Thursday, or on
Wednesday in a leap year; 52 otherwise. -/
def isoWeeksInYear (y : Nat) : Nat :=
  let jan1 := isoWeekday ⟨y, 1, 1⟩
  if jan1 = 4 || (isLeap y && jan1 = 3) then 53 else 52

/-- ISO 8601 week number (pandas `dt.isocalendar().week`). -/
def isoWeek (dt : Date) : Nat :=
  let w := (dt.doy + 10 - isoWeekday dt) / 7
  if w = 0 then isoWeeksInYear (dt.year - 1)
  else if w = 53 && isoWeeksInYear dt.year = 52 then 1
  else w

example : isoWeek ⟨2024, 1, 1⟩ = 1 := by decide
example : isoWeek ⟨2023, 1, 1⟩ = 52 := by decide
example : isoWeek ⟨2021, 1, 1⟩ = 53 := by decide
example : isoWeek ⟨2020, 12, 31⟩ = 53 := by decide
example : isoWeek ⟨2024, 12, 30⟩ = 1 := by decide
example : isoWeek ⟨2016, 1, 3⟩ = 53 := by decide
example : isoWeek ⟨2025, 2, 28⟩ = 9 := by decide

/-! ## Metric primitives (`gold/metrics`)

The source metric functions act on a bar table's Open/High/Low/Close
columns; they are embedded on the column values. -/

/-- A daily price bar (`gold` bar table row, columns already numeric). -/
structure Bar where
  date  : Date
  bopen : ℚ
  high  : ℚ
  low   : ℚ
  close : ℚ
deriving DecidableEq, Repr

/-- `gold/metrics/ret.py` `pct`: (Close − Open) / Open × 100. -/
def pct (o c : ℚ) : ℚ := (c - o) / o * 100

/-- Modelled from the spec: `gold/metrics/range.py` (`bar_range`) is
imported by every profile builder but the module is absent from the
source tree; the spec defines RangePoints = High − Low. -/
def bar_range (hi lo : ℚ) : ℚ := hi - lo

/-- `gold/metrics/color.py` `flag`: 1.0 when Close − Open > 0 else 0.0. -/
def flag (o c : ℚ) : ℚ := if c - o > 0 then 1 else 0

/-- `gold/metrics/color.py` `probs`: `(sum/count, 1 − sum/count)` over the
flags, `(0, 0)` when the count is zero (no division happens then). -/
def probs (flags : List ℚ) : ℚ × ℚ :=
  let tot := flags.length
  if tot = 0 then (0, 0)
  else (flags.sum / tot, 1 - flags.sum / tot)

/-- Pandas `Series.mean` over a nonempty group: sum divided by length. -/
def qmean (xs : List ℚ) : ℚ := xs.sum / xs.length

/-! ## Embeddings of pandas operations on row lists

`sort_values` is embedded as a stable insertion sort by a `Nat` key;
`groupby` (with its default `sort=True`) as the sorted list of distinct
keys paired with each key's rows in original order; the `ensure` helper's
left `merge` + `fillna(0)` as a per-bucket lookup. -/

/-- Insert `a` after every element whose key is ≤ its own (stable). -/
def insertStable {α : Type} (key : α → Nat) (a : α) : List α → List α
  | [] => [a]
  | b :: bs => if key b ≤ key a then b :: insertStable key a bs else a :: b :: bs

/-- Stable sort by a `Nat` key (embeds `DataFrame.sort_values`). -/
def sortByKey {α : Type} (key : α → Nat) (l : List α) : List α :=
  l.foldl (fun acc a => insertStable key a acc) []

/-- Sorted distinct keys, as pandas `groupby(sort=True)` produces them. -/
def sortedKeys (l : List Nat) : List Nat := sortByKey id l.dedup

/-- `df.groupby(key)`: each distinct key (ascending) with its rows in
original order. -/
def groupBy {α : Type} (key : α → Nat) (l : List α) : List (Nat × List α) :=
  (sortedKeys (l.map key)).map (fun k => (k, l.filter (fun x => key x = k)))

theorem insertStable_perm {α : Type} (key : α → Nat) (a : α) :
    ∀ l : List α, (insertStable key a l).Perm (a :: l)
  | [] => List.Perm.refl _
  | b :: bs => by
      unfold insertStable
      split
      · exact ((insertStable_perm key a bs).cons b).trans (List.Perm.swap a b bs)
      · exact List.Perm.refl _

theorem foldl_insertStable_perm {α : Type} (key : α → Nat) :
    ∀ (l acc : List α),
      (l.foldl (fun acc a => insertStable key a acc) acc).Perm (acc ++ l)
  | [], acc => by simp
  | a :: l, acc => by
      simp only [List.foldl_cons]
      refine (foldl_insertStable_perm key l (insertStable key a acc)).trans ?_
      refine (((insertStable_perm key a acc).append_right l).trans ?_)
      exact List.perm_middle.symm

theorem sortByKey_perm {α : Type} (key : α → Nat) (l : List α) :
    (sortByKey key l).Perm l := by
  simpa using foldl_insertStable_perm key l []

theorem length_sortByKey {α : Type} (key : α → Nat) (l : List α) :
    (sortByKey key l).length = l.length :=
  (sortByKey_perm key l).length_eq

theorem mem_sortByKey {α : Type} {key : α → Nat} {l : List α} {a : α} :
    a ∈ sortByKey key l ↔ a ∈ l :=
  (sortByKey_perm key l).mem_iff

theorem sortedKeys_nodup (l : List Nat) : (sortedKeys l).Nodup :=
  ((sortByKey_perm id l.dedup).nodup_iff).mpr l.nodup_dedup

theorem mem_sortedKeys {l : List Nat} {k : Nat} :
    k ∈ sortedKeys l ↔ k ∈ l :=
  (sortByKey_perm id l.dedup).mem_iff.trans (List.mem_dedup)

theorem groupBy_fst {α : Type} (key : α → Nat) (l : List α) :
    (groupBy key l).map Prod.fst = sortedKeys (l.map key) := by
  simp [groupBy, Function.comp_def]

theorem mem_groupBy {α : Type} {key : α → Nat} {l : List α}
    {kg : Nat × List α} (h : kg ∈ groupBy key l) :
    kg.1 ∈ sortedKeys (l.map key) ∧ kg.2 = l.filter (fun x => key x = kg.1) := by
  rcases List.mem_map.mp h with ⟨k, hk, rfl⟩
  exact ⟨hk, rfl⟩

/-! ## Display labels (`gold/utils/labels.py`) -/

namespace L

/-- `labels.dow`: weekday name for 1..5, the number itself otherwise. -/
def dow (i : Nat) : String :=
  match i with
  | 1 => "Mon" | 2 => "Tue" | 3 => "Wed" | 4 => "Thu" | 5 => "Fri"
  | _ => toString i

/-- `labels.week`: the string `W` followed by the week number. -/
def week (i : Nat) : String := "W" ++ toString i

end L

/-! ## Domain-completeness fill (`gold/utils/ensure.py`) -/

/-- One profile output row (Bucket, Label and the four metrics). -/
structure PRow where
  bucket    : Nat
  label     : String
  probGreen : ℚ
  probRed   : ℚ
  avgReturn : ℚ
  avgRange  : ℚ
deriving DecidableEq, Repr

/-- Row built by `ensure`'s empty branch: all metrics 0 and the Label
column set to the bucket value (`base["Label"] = base[col]`). -/
def zeroRow (b : Nat) : PRow := ⟨b, toString b, 0, 0, 0, 0⟩

/-- Row produced for an unmatched bucket by the left merge: every
right-hand column is missing, so `fillna(0)` writes 0 everywhere
(including the Label column, which callers overwrite afterwards). -/
def fillRow (b : Nat) : PRow := ⟨b, "0", 0, 0, 0, 0⟩

/-- `gold/utils/ensure.py` `ensure`: with an empty frame return one
all-zero row per bucket; otherwise left-merge the full bucket list with
the aggregated rows and fill the holes with 0. -/
def ensure (rows : List PRow) (buckets : List Nat) : List PRow :=
  if rows.isEmpty then buckets.map zeroRow
  else
    buckets.flatMap (fun b =>
      match rows.filter (fun r => r.bucket = b) with
      | [] => [fillRow b]
      | ms => ms)

/-! ## Week-of-year profile (`gold/profiles/week_of_year.py`) -/

namespace WeekOfYear

/-- The fixed bucket domain `list(range(1, 53))`. -/
def BUCKETS : List Nat := (List.range 52).map (· + 1)

/-- `lab`: delegate to `labels.week`. -/
def lab (v : Nat) : String := L.week v

/-- The aggregated row the `groupby("Bucket")` loop appends for one
bucket `k` with group `g` (ProbGreen/ProbRed scaled by 100). -/
def buildRow (k : Nat) (g : List Bar) : PRow :=
  let p := probs (g.map (fun b => flag b.bopen b.close))
  { bucket := k, label := lab k,
    probGreen := p.1 * 100, probRed := p.2 * 100,
    avgReturn := qmean (g.map (fun b => pct b.bopen b.close)),
    avgRange  := qmean (g.map (fun b => bar_range b.high b.low)) }

/-- The date-range filter (`df[(df["Date"]>=start) & (df["Date"]<=end)]`). -/
def dfOf (bars : List Bar) (start stop : Date) : List Bar :=
  bars.filter (fun b => dateLe start b.date && dateLe b.date stop)

/-- The `groupby("Bucket")` aggregation loop's output rows. -/
def rowsOf (bars : List Bar) (start stop : Date) : List PRow :=
  (groupBy (fun b => isoWeek b.date) (dfOf bars start stop)).map
    (fun kg => buildRow kg.1 kg.2)

/-- `week_of_year.build`: filter to `[start, stop]`, bucket by ISO week
number, aggregate per bucket, complete the domain with `ensure`,
recompute labels and sort by bucket. -/
def build (bars : List Bar) (start stop : Date) : List PRow :=
  let out := ensure (rowsOf bars start stop) BUCKETS
  sortByKey (fun r => r.bucket) (out.map (fun r => { r with label := lab r.bucket }))

end WeekOfYear

/-! ## Session profile (`gold/profiles/session.py`) -/

namespace Session

/-- Weekday buckets 1..5. -/
def BUCKETS : List Nat := [1, 2, 3, 4, 5]

/-- Session numbers (Asia, London, NY). -/
def SESSION_BUCKETS : List Nat := [1, 2, 3]

/-- Sentinel bucket used by the combined view. -/
def ALL_SESSIONS_BUCKET : Nat := 0

/-- Session windows in Eastern time, `(start, stop)` each as
(hour, minute): Asia 16:00–23:59, London 00:00–7:59, NY 8:00–15:59. -/
def SESSION_TIMES : List (Nat × (Nat × Nat) × (Nat × Nat)) :=
  [(1, ((16, 0), (23, 59))),
   (2, ((0, 0), (7, 59))),
   (3, ((8, 0), (15, 59)))]

/-- `datetime.time` comparison: lexicographic on (hour, minute). -/
def timeLeq (a b : Nat × Nat) : Bool :=
  a.1 < b.1 || (a.1 = b.1 && a.2 ≤ b.2)

/-- Whether `time(hour, 0)` falls inside one window entry, including the
source's branch for windows that would cross midnight. -/
def inSessionWindow (st : Nat × (Nat × Nat) × (Nat × Nat)) (hour : Nat) : Bool :=
  let t : Nat × Nat := (hour, 0)
  let s := st.2.1
  let e := st.2.2
  if timeLeq s e then timeLeq s t && timeLeq t e
  else timeLeq s t || timeLeq t e

/-- `session.determine_session`: first window of `SESSION_TIMES`
containing `time(hour, 0)`, `None` when no window matches. -/
def determine_session (hour : Nat) : Option Nat :=
  (SESSION_TIMES.find? (fun st => inSessionWindow st hour)).map (fun st => st.1)

/-- `session_label`: name for a session number. -/
def session_label (n : Nat) : String :=
  match n with
  | 1 => "Asia" | 2 => "London" | 3 => "NY"
  | _ => toString n

/-- `dow_session_label`: `"{day}-{session}"` display label. -/
def dow_session_label (day s : Nat) : String :=
  L.dow day ++ "-" ++ session_label s

/-- An hourly bar: calendar day plus hour (the source's single UTC
timestamp split into its date and hour components). -/
structure HBar where
  day   : Date
  hour  : Nat
  bopen : ℚ
  high  : ℚ
  low   : ℚ
  close : ℚ
deriving DecidableEq, Repr

/-- Hourly timestamp comparison (date, then hour). -/
def hLe (a b : Date × Nat) : Bool :=
  if a.1 = b.1 then a.2 ≤ b.2 else dateLe a.1 b.1

/-- A session profile output row; `dayLabel` is present only in the
daily view (the combined view's frame has no DayLabel column). -/
structure SRow where
  bucket       : Nat
  session      : Nat
  label        : String
  dayLabel     : Option String
  sessionLabel : String
  probGreen    : ℚ
  probRed      : ℚ
  avgReturn    : ℚ
  avgRange     : ℚ
deriving DecidableEq, Repr

/-- Build one daily-view row for weekday `day`, session `s`, group `g`. -/
def dailyRow (day s : Nat) (g : List HBar) : SRow :=
  let p := probs (g.map (fun b => flag b.bopen b.close))
  { bucket := day, session := s,
    label := dow_session_label day s,
    dayLabel := some (L.dow day),
    sessionLabel := session_label s,
    probGreen := p.1 * 100, probRed := p.2 * 100,
    avgReturn := qmean (g.map (fun b => pct b.bopen b.close)),
    avgRange  := qmean (g.map (fun b => bar_range b.high b.low)) }

/-- Build one combined-view row for session `s`, group `g`. -/
def combinedRow (s : Nat) (g : List HBar) : SRow :=
  let p := probs (g.map (fun b => flag b.bopen b.close))
  { bucket := ALL_SESSIONS_BUCKET, session := s,
    label := session_label s,
    dayLabel := none,
    sessionLabel := session_label s,
    probGreen := p.1 * 100, probRed := p.2 * 100,
    avgReturn := qmean (g.map (fun b => pct b.bopen b.close)),
    avgRange  := qmean (g.map (fun b => bar_range b.high b.low)) }

/-- `session.build`.  `eastern` embeds the `tz_localize("UTC")` /
`tz_convert("America/New_York")` step as an oracle mapping a UTC (day,
hour) to the Eastern pandas weekday (0 = Monday .. 6 = Sunday) and hour;
the builder adds 1 to the weekday as the source does.  Rows keep their
session assignment as an `Option`; `groupby` drops rows whose session
key is missing, and the grouped keys are ordered as pandas orders the
(Weekday, Session) tuples (encoded here as `weekday * 4 + session`,
which is lexicographic for sessions 1..3).  An empty post-filter frame
returns the empty table — there is no domain-completeness fill. -/
def build (eastern : Date → Nat → Nat × Nat) (bars : List HBar)
    (start stop : Date × Nat) (view : String) : List SRow :=
  let df := bars.filter (fun b =>
    hLe start (b.day, b.hour) && hLe (b.day, b.hour) stop)
  if df.isEmpty then []
  else
    let keyed := df.filterMap (fun b =>
      let wh := eastern b.day b.hour
      let wd := wh.1 + 1
      if wd ≤ 5 then
        match determine_session wh.2 with
        | some s => some (b, wd, s)
        | none => none
      else none)
    if view = "daily" then
      (groupBy (fun x : HBar × Nat × Nat => x.2.1 * 4 + x.2.2) keyed).flatMap
        (fun kg =>
          match kg.2 with
          | [] => []
          | x :: _ => [dailyRow x.2.1 x.2.2 (kg.2.map (fun y => y.1))])
    else
      (groupBy (fun x : HBar × Nat × Nat => x.2.2) keyed).flatMap
        (fun kg =>
          match kg.2 with
          | [] => []
          | x :: _ => [combinedRow x.2.2 (kg.2.map (fun y => y.1))])

end Session

/-! ## Seasonality calculator (`gold/seasonality.py`) -/

namespace Seasonality

/-- `config.cutoff_month` (February). -/
def cutoff_month : Nat := 2

/-- `config.cutoff_year`. -/
def cutoff_year : Nat := 2025

/-- `config.complete_year`: the cutoff year when the cutoff month is
December, the previous year otherwise (= 2024 with the configured
constants).  `calculate_seasonality` reads this attribute from the
`gold.config` module. -/
def complete_year : Nat :=
  if cutoff_month = 12 then cutoff_year else cutoff_year - 1

/-- An input bar for the seasonality calculator. -/
structure SeasBar where
  date  : Date
  bopen : ℚ
  high  : ℚ
  low   : ℚ
  close : ℚ
deriving DecidableEq, Repr

/-- An annotated output row: the bar, its Return (undefined for the
first close-close row) and the Year/Month/Day/DayOfYear columns. -/
structure SeasRow where
  date  : Date
  bopen : ℚ
  high  : ℚ
  low   : ℚ
  close : ℚ
  ret   : Option ℚ
  year  : Nat
  month : Nat
  day   : Nat
  doy   : Nat
deriving DecidableEq, Repr

/-- The date filter of `calculate_seasonality`: drop bars after the
cutoff (when one is given), then keep bars whose calendar year is at
least `complete_year - years_back`. -/
def filterBars (bars : List SeasBar) (years_back : Nat)
    (cutoff : Option Date) : List SeasBar :=
  let df1 := match cutoff with
    | some cd => bars.filter (fun b : SeasBar => dateLe b.date cd)
    | none => bars
  df1.filter (fun b => complete_year - years_back ≤ b.date.year)

/-- `Close.pct_change() * 100`: the first row has no previous close and
gets a missing value; each later row is measured against the row before
it in frame order. -/
def closeCloseRets (l : List SeasBar) : List (Option ℚ) :=
  match l with
  | [] => []
  | b0 :: rest =>
      none :: (rest.zip (b0 :: rest)).map
        (fun pc => some ((pc.1.close - pc.2.close) / pc.2.close * 100))

/-- The leap-adjusted DayOfYear column: `dt.dayofyear`, minus 1 when the
date lies in a leap year with `dayofyear > 59`. -/
def adjustedDayOfYear (dt : Date) : Nat :=
  if isLeap dt.year && dt.doy > 59 then dt.doy - 1 else dt.doy

/-- `seasonality.calculate_seasonality`: filter by cutoff and years
back, compute the Return column by the chosen method (`"open-close"`
intraday, otherwise close-to-previous-close), and annotate each
surviving bar with Year, Month, Day and leap-adjusted DayOfYear. -/
def calculate_seasonality (bars : List SeasBar) (years_back : Nat)
    (return_type : String) (cutoff : Option Date) : List SeasRow :=
  let df := filterBars bars years_back cutoff
  let rets : List (Option ℚ) :=
    if return_type = "open-close" then
      df.map (fun b => some ((b.close - b.bopen) / b.bopen * 100))
    else closeCloseRets df
  (df.zip rets).map (fun br =>
    { date := br.1.date, bopen := br.1.bopen, high := br.1.high,
      low := br.1.low, close := br.1.close, ret := br.2,
      year := br.1.date.year, month := br.1.date.month,
      day := br.1.date.day, doy := adjustedDayOfYear br.1.date })

/-- Stated from the spec's words, for comparison with the code's filter:
the timestamp `yearsBack` years before a cutoff date. -/
def cutoffMinusYears (d : Date) (n : Nat) : Date := ⟨d.year - n, d.month, d.day⟩

end Seasonality

/-! ## Composite averager (`gold/composite_avg.py`) -/

namespace Composite

/-- One row of a profile's historical table: the value of the label
column (the cycle unit) and the remaining columns as name/value pairs. -/
structure CRow where
  label : Int
  vals  : List (String × ℚ)
deriving DecidableEq, Repr

/-- A rectangular frame: its column list and its rows. -/
structure CTable where
  cols : List String
  rows : List CRow
deriving DecidableEq, Repr

/-- The `"month"` entry of `COMPOSITE_PERIODS` (also the fallback when a
profile key is unknown). -/
def MONTH_PERIODS : List (String × Nat) :=
  [("1 Year", 1), ("3 Years", 3), ("5 Years", 5),
   ("10 Years", 10), ("15 Years", 15)]

/-- `COMPOSITE_PERIODS`: named horizon → window size, per profile. -/
def COMPOSITE_PERIODS : List (String × List (String × Nat)) :=
  [("decennial",
    [("10 Years", 10), ("20 Years", 20), ("30 Years", 30),
     ("50 Years", 50), ("100 Years", 100)]),
   ("presidential",
    [("4 Years", 4), ("8 Years", 8), ("12 Years", 12),
     ("20 Years", 20), ("40 Years", 40)]),
   ("quarter",
    [("1 Year", 1), ("3 Years", 3), ("5 Years", 5),
     ("10 Years", 10), ("20 Years", 20)]),
   ("month", MONTH_PERIODS),
   ("week_of_year",
    [("1 Year", 1), ("3 Years", 3), ("5 Years", 5),
     ("10 Years", 10), ("20 Years", 20)]),
   ("week_of_month",
    [("1 Month", 1), ("3 Months", 3), ("6 Months", 6),
     ("12 Months", 12), ("36 Months", 36)]),
   ("day_of_week",
    [("1 Week", 1), ("4 Weeks", 4), ("12 Weeks", 12),
     ("52 Weeks", 52), ("156 Weeks", 156)]),
   ("session",
    [("1 Week", 1), ("4 Weeks", 4), ("12 Weeks", 12),
     ("52 Weeks", 52), ("156 Weeks", 156)])]

/-- `get_composite_periods`: the profile's table, defaulting to the
month table for unknown profile keys. -/
def get_composite_periods (profile_key : String) : List (String × Nat) :=
  (COMPOSITE_PERIODS.lookup profile_key).getD MONTH_PERIODS

/-- Read one named column of a row (0 for an absent column; rows are
only read on columns the frame declares). -/
def getVal (r : CRow) (c : String) : ℚ := (r.vals.lookup c).getD 0

/-- Replace the first binding of a column name, appending when absent. -/
def setPairs : List (String × ℚ) → String → ℚ → List (String × ℚ)
  | [], c, v => [(c, v)]
  | (c', v') :: rest, c, v =>
      if c' = c then (c, v) :: rest else (c', v') :: setPairs rest c v

/-- Write one named column of a row. -/
def setVal (r : CRow) (c : String) (v : ℚ) : CRow :=
  { r with vals := setPairs r.vals c v }

/-- Pandas `Series.tail(n)`: the last `n` elements (all of them when
fewer than `n` exist). -/
def tailN {α : Type} (n : Nat) (l : List α) : List α := l.drop (l.length - n)

/-- The label-group column values used by `grouped[col].transform`: the
`col` values of every row sharing the label, in frame order. -/
def groupColVals (rows : List CRow) (u : Int) (c : String) : List ℚ :=
  (rows.filter (fun r => r.label = u)).map (fun r => getVal r c)

/-- One row after the metric-column loop: each requested column that the
frame declares is overwritten with `x.tail(n).mean()` over the row's
label group (taken from the original frame, as `grouped` is). -/
def transformRow (df : CTable) (n : Nat) (metric_columns : List String)
    (r : CRow) : CRow :=
  metric_columns.foldl (fun acc c =>
    if c ∈ df.cols then
      setVal acc c (qmean (tailN n (groupColVals df.rows r.label c)))
    else acc) r

/-- `drop_duplicates(label_column)`: keep the first row of each label. -/
def dropDupAux (seen : List Int) : List CRow → List CRow
  | [] => []
  | r :: rs =>
      if r.label ∈ seen then dropDupAux seen rs
      else r :: dropDupAux (r.label :: seen) rs

/-- `composite_avg.calculate_composite_average`: empty input gives an
empty frame; an unknown horizon or `"Min Cycle"` returns the input
unchanged; otherwise every requested metric column becomes the mean of
the label group's last `n` values and one row per label is kept. -/
def calculate_composite_average (df : CTable)
    (profile_key composite_type : String)
    (metric_columns : List String) : CTable :=
  if df.rows.isEmpty then ⟨[], []⟩
  else
    let periods := get_composite_periods profile_key
    if (periods.lookup composite_type).isNone || composite_type = "Min Cycle"
    then df
    else
      let n := (periods.lookup composite_type).getD 0
      ⟨df.cols, dropDupAux [] (df.rows.map (transformRow df n metric_columns))⟩

end Composite

/-! ## Tab-level composite averaging (`gold/tabs/cyclical_profiles.py`) -/

namespace CyclicalProfiles

/-- The seed `calculate_composite_averages` derives from the wall clock
(`now = datetime.now()` at the invocation date):
`(now.year % 10) * 1000 + now.month * 100 + now.day`.  Every
per-timeframe RNG seed is a multiple of this value, so the synthetic
pattern data the function returns is a function of the invocation date. -/
def global_seed (year month day : Nat) : Nat :=
  (year % 10) * 1000 + month * 100 + day

end CyclicalProfiles

/-! ## Concrete inputs used by witnesses and counterexamples -/

namespace Demo

/-- A bar dated 2020-12-31, whose ISO week number is 53. -/
def wBar53 : Bar := ⟨⟨2020, 12, 31⟩, 1, 2, 1, 2⟩

/-- A green bar dated 2024-01-03 (ISO week 1). -/
def wBar1 : Bar := ⟨⟨2024, 1, 3⟩, 1, 2, 1, 2⟩

/-- Placeholder row for `headD` on seasonality output. -/
def seasDefault : Seasonality.SeasRow := ⟨⟨0, 0, 0⟩, 0, 0, 0, 0, none, 0, 0, 0, 0⟩

/-- A seasonality bar dated Dec 31 of the 2024 leap year. -/
def decBar : Seasonality.SeasBar := ⟨⟨2024, 12, 31⟩, 1, 2, 1, 2⟩

/-- The first annotated row for `[decBar]` (open-close, no cutoff). -/
def decRow : Seasonality.SeasRow :=
  (Seasonality.calculate_seasonality [decBar] 10 "open-close" none).headD
    seasDefault

/-- A seasonality bar dated Mar 1 of the 2024 leap year. -/
def marBar : Seasonality.SeasBar := ⟨⟨2024, 3, 1⟩, 1, 2, 1, 2⟩

/-- The first annotated row for `[marBar]` (open-close, no cutoff). -/
def marRow : Seasonality.SeasRow :=
  (Seasonality.calculate_seasonality [marBar] 10 "open-close" none).headD
    seasDefault

/-- A seasonality bar from early 2014. -/
def earlyBar : Seasonality.SeasBar := ⟨⟨2014, 3, 1⟩, 1, 2, 1, 2⟩

/-- A mid-2024 cutoff date. -/
def cd0 : Date := ⟨2024, 6, 15⟩

/-- The first annotated row for `[earlyBar]` with the 2024-06-15 cutoff. -/
def earlyRow : Seasonality.SeasRow :=
  (Seasonality.calculate_seasonality [earlyBar] 10 "open-close"
    (some cd0)).headD seasDefault

/-- Two consecutive seasonality bars of January 2024. -/
def ccBars : List Seasonality.SeasBar :=
  [⟨⟨2024, 1, 2⟩, 1, 2, 1, 2⟩, ⟨⟨2024, 1, 3⟩, 1, 2, 1, 3⟩]

/-- The first annotated row for `ccBars` under the close-close method. -/
def ccRow : Seasonality.SeasRow :=
  (Seasonality.calculate_seasonality ccBars 10 "close-close" none).headD
    seasDefault

/-- A composite row carrying one metric column. -/
def cRow (u : Int) (v : ℚ) : Composite.CRow := ⟨u, [("AvgReturn", v)]⟩

/-- A composite history: unit 1 with instances 10, 30, 50 and unit 2
with instances 20, 40 (in recorded order). -/
def cTab : Composite.CTable :=
  ⟨["Month", "AvgReturn"],
   [cRow 1 10, cRow 2 20, cRow 1 30, cRow 2 40, cRow 1 50]⟩

end Demo

/-! ## Lemmas about the completeness fill -/

theorem filter_bucket_len_le_one {rows : List PRow}
    (h : (rows.map PRow.bucket).Nodup) (b : Nat) :
    (rows.filter (fun r => r.bucket = b)).length ≤ 1 := by
  induction rows with
  | nil => simp
  | cons r rs ih =>
      rw [List.map_cons, List.nodup_cons] at h
      rw [List.filter_cons]
      by_cases hb : r.bucket = b
      · have hnil : rs.filter (fun t => t.bucket = b) = [] := by
          rw [List.filter_eq_nil_iff]
          intro a ha hab
          exact h.1 (List.mem_map.mpr
            ⟨a, ha, (of_decide_eq_true hab).trans hb.symm⟩)
        simp [hb, hnil]
      · simpa [hb] using ih h.2

theorem ensureGroup_length {rows : List PRow}
    (h : (rows.map PRow.bucket).Nodup) (b : Nat) :
    (match rows.filter (fun r : PRow => r.bucket = b) with
      | [] => [fillRow b]
      | ms => ms).length = 1 := by
  have hle := filter_bucket_len_le_one h b
  cases hq : rows.filter (fun r : PRow => r.bucket = b) with
  | nil => rfl
  | cons x xs =>
      rw [hq] at hle
      have : xs = [] := by
        cases xs with
        | nil => rfl
        | cons y ys => simp at hle
      simp [this]

theorem ensure_length {rows : List PRow} (buckets : List Nat)
    (h : (rows.map PRow.bucket).Nodup) :
    (ensure rows buckets).length = buckets.length := by
  unfold ensure
  split
  · simp
  · induction buckets with
    | nil => rfl
    | cons b bs ih =>
        rw [List.flatMap_cons, List.length_append, ih, ensureGroup_length h b]
        simp [Nat.add_comm]

theorem mem_ensureGroup {rows : List PRow} {b : Nat} {r : PRow}
    (h : r ∈ (match rows.filter (fun t => t.bucket = b) with
      | [] => [fillRow b]
      | ms => ms)) :
    (rows.filter (fun t => t.bucket = b) = [] ∧ r = fillRow b) ∨
      (r ∈ rows ∧ r.bucket = b) := by
  cases hq : rows.filter (fun t => t.bucket = b) with
  | nil =>
      rw [hq] at h
      exact Or.inl ⟨rfl, List.mem_singleton.mp h⟩
  | cons x xs =>
      rw [hq] at h
      have hr : r ∈ rows.filter (fun t => t.bucket = b) := hq ▸ h
      have := List.mem_filter.mp hr
      exact Or.inr ⟨this.1, of_decide_eq_true this.2⟩

theorem mem_ensure {rows : List PRow} {buckets : List Nat} {r : PRow}
    (h : r ∈ ensure rows buckets) :
    r.bucket ∈ buckets ∧
      ((rows.filter (fun t => t.bucket = r.bucket) = [] ∧
          (r.probGreen = 0 ∧ r.probRed = 0 ∧ r.avgReturn = 0 ∧ r.avgRange = 0)) ∨
        r ∈ rows) := by
  unfold ensure at h
  split at h
  · rcases List.mem_map.mp h with ⟨b, hb, rfl⟩
    constructor
    · exact hb
    · refine Or.inl ⟨?_, by simp [zeroRow]⟩
      have hrows : rows = [] := by
        rename_i he; exact List.isEmpty_iff.mp he
      simp [hrows]
  · rcases List.mem_flatMap.mp h with ⟨b, hb, hr⟩
    rcases mem_ensureGroup hr with ⟨hnil, rfl⟩ | ⟨hmem, hbk⟩
    · exact ⟨hb, Or.inl ⟨by simpa [fillRow] using hnil, by simp [fillRow]⟩⟩
    · exact ⟨hbk ▸ hb, Or.inr hmem⟩

/-! ## Lemmas about the week-of-year builder -/

namespace WeekOfYear

theorem buildRow_bucket (k : Nat) (g : List Bar) : (buildRow k g).bucket = k := rfl

theorem rowsOf_buckets (bars : List Bar) (start stop : Date) :
    (rowsOf bars start stop).map PRow.bucket =
      sortedKeys ((dfOf bars start stop).map (fun b => isoWeek b.date)) := by
  unfold rowsOf
  rw [List.map_map, ← groupBy_fst (fun b => isoWeek b.date) (dfOf bars start stop)]
  rfl

theorem rowsOf_buckets_nodup (bars : List Bar) (start stop : Date) :
    ((rowsOf bars start stop).map PRow.bucket).Nodup := by
  rw [rowsOf_buckets]; exact sortedKeys_nodup _

theorem BUCKETS_length : BUCKETS.length = 52 := by decide

theorem mem_BUCKETS {b : Nat} (h : b ∈ BUCKETS) : 1 ≤ b ∧ b ≤ 52 := by
  rcases List.mem_map.mp h with ⟨i, hi, rfl⟩
  have := List.mem_range.mp hi
  omega

/-- Each row of `build` comes from a row of the `ensure` output with the
same bucket and metrics (only the label is recomputed afterwards). -/
theorem build_mem_decomp {bars : List Bar} {start stop : Date} {r : PRow}
    (h : r ∈ build bars start stop) :
    ∃ r' ∈ ensure (rowsOf bars start stop) BUCKETS,
      r.bucket = r'.bucket ∧ r.probGreen = r'.probGreen ∧
      r.probRed = r'.probRed ∧ r.avgReturn = r'.avgReturn ∧
      r.avgRange = r'.avgRange := by
  unfold build at h
  rcases List.mem_map.mp (mem_sortByKey.mp h) with ⟨r', hr', rfl⟩
  exact ⟨r', hr', rfl, rfl, rfl, rfl, rfl⟩

theorem build_length (bars : List Bar) (start stop : Date) :
    (build bars start stop).length = 52 := by
  unfold build
  rw [length_sortByKey, List.length_map,
    ensure_length BUCKETS (rowsOf_buckets_nodup bars start stop), BUCKETS_length]

theorem build_ne_nil (bars : List Bar) (start stop : Date) :
    build bars start stop ≠ [] := by
  intro h
  have := build_length bars start stop
  rw [h] at this
  simp at this

end WeekOfYear

theorem headD_mem {α : Type} {l : List α} (d : α) (h : l ≠ []) :
    l.headD d ∈ l := by
  cases l with
  | nil => exact absurd rfl h
  | cons a as => simp

theorem probs_sum_100 {flags : List ℚ} (h : flags ≠ []) :
    (probs flags).1 * 100 + (probs flags).2 * 100 = 100 := by
  have hlen : flags.length ≠ 0 := by simpa using h
  unfold probs
  simp only [hlen, if_neg, ite_false]
  ring

/-! ## Claim theorems -/

/-- Claim C1 (amended): for the week-of-year profile, `build` returns
exactly |Domain| = 52 rows for every bars/start/end input, including
input where no bars survive date filtering; the session profile's
`build`, however, performs no completeness fill and returns the empty
table whenever no bars survive date filtering. -/
theorem build_always_full_domain :
    (∀ (bars : List Bar) (start stop : Date),
      (WeekOfYear.build bars start stop).length = 52) ∧
    (∀ (eastern : Date → Nat → Nat × Nat) (bars : List Session.HBar)
        (start stop : Date × Nat) (view : String),
      (bars.filter (fun b : Session.HBar =>
          Session.hLe start (b.day, b.hour) &&
            Session.hLe (b.day, b.hour) stop)).isEmpty = true →
      Session.build eastern bars start stop view = []) := by
  constructor
  · exact WeekOfYear.build_length
  · intro eastern bars start stop view h
    unfold Session.build
    simp [h]

/-- Claim C1, witness: the week-of-year build on one 2024 bar returns
52 rows, and the session build whose single bar falls outside the date
range returns the empty table. -/
theorem build_always_full_domain_witness :
    (WeekOfYear.build [Demo.wBar1] ⟨2024, 1, 1⟩ ⟨2024, 12, 31⟩).length = 52 ∧
      Session.build (fun _ _ => (0, 0)) [⟨⟨2020, 6, 1⟩, 12, 1, 2, 1, 2⟩]
        (⟨2024, 1, 1⟩, 0) (⟨2024, 12, 31⟩, 23) "daily" = [] :=
  ⟨build_always_full_domain.1 [Demo.wBar1] ⟨2024, 1, 1⟩ ⟨2024, 12, 31⟩,
    build_always_full_domain.2 (fun _ _ => (0, 0))
      [⟨⟨2020, 6, 1⟩, 12, 1, 2, 1, 2⟩]
      (⟨2024, 1, 1⟩, 0) (⟨2024, 12, 31⟩, 23) "daily" (by decide)⟩

/-- Claim C1, counterexample to the claim as stated: for the session
profile with input where no bars survive date filtering (one bar from
2020 against a 2024 range), `build` returns 0 rows, not one row per
weekday-session pair of the domain (15). -/
theorem session_build_row_count_counterexample :
    ¬ ((Session.build (fun _ _ => (0, 0))
          [⟨⟨2020, 6, 1⟩, 12, 1, 2, 1, 2⟩]
          (⟨2024, 1, 1⟩, 0) (⟨2024, 12, 31⟩, 23) "daily").length = 15) := by
  decide

/-- Claim C9: every row of the week-of-year `build` output has its
Bucket in the capped domain 1..52; a bar whose ISO week number is 53
never yields a week-53 row (the left merge onto the 1..52 domain drops
that aggregate). -/
theorem week_of_year_bucket_capped :
    ∀ (bars : List Bar) (start stop : Date) (r : PRow),
      r ∈ WeekOfYear.build bars start stop →
      1 ≤ r.bucket ∧ r.bucket ≤ 52 := by
  intro bars start stop r h
  rcases WeekOfYear.build_mem_decomp h with ⟨r', hr', hbk, _⟩
  rw [hbk]
  exact WeekOfYear.mem_BUCKETS (mem_ensure hr').1

/-- Claim C9, witness: the bounds hold on the first output row for an
input bar dated 2020-12-31, whose ISO week number is 53. -/
theorem week_of_year_bucket_capped_witness :
    1 ≤ ((WeekOfYear.build [⟨⟨2020, 12, 31⟩, 1, 2, 1, 2⟩]
        ⟨2020, 1, 1⟩ ⟨2021, 1, 1⟩).headD (fillRow 99)).bucket ∧
      ((WeekOfYear.build [⟨⟨2020, 12, 31⟩, 1, 2, 1, 2⟩]
        ⟨2020, 1, 1⟩ ⟨2021, 1, 1⟩).headD (fillRow 99)).bucket ≤ 52 :=
  week_of_year_bucket_capped [⟨⟨2020, 12, 31⟩, 1, 2, 1, 2⟩]
    ⟨2020, 1, 1⟩ ⟨2021, 1, 1⟩
    ((WeekOfYear.build [⟨⟨2020, 12, 31⟩, 1, 2, 1, 2⟩]
        ⟨2020, 1, 1⟩ ⟨2021, 1, 1⟩).headD (fillRow 99))
    (headD_mem (fillRow 99) (WeekOfYear.build_ne_nil _ _ _))

/-- Every row of the session builder aggregates a nonempty group, so its
scaled probabilities always sum to 100. -/
theorem session_build_prob {eastern : Date → Nat → Nat × Nat}
    {bars : List Session.HBar} {start stop : Date × Nat} {view : String}
    {r : Session.SRow} (h : r ∈ Session.build eastern bars start stop view) :
    r.probGreen + r.probRed = 100 := by
  simp only [Session.build] at h
  split at h
  · exact absurd h (List.not_mem_nil r)
  · split at h <;>
    · rcases List.mem_flatMap.mp h with ⟨kg, hkg, hr⟩
      cases hq : kg.2 with
      | nil => rw [hq] at hr; exact absurd hr (List.not_mem_nil r)
      | cons x rest =>
          rw [hq] at hr
          simp only [List.mem_singleton] at hr
          subst hr
          exact probs_sum_100 (by simp)

/-- Claim C2: in every week-of-year profile row, a bucket with at least
one observation (a date-filtered bar whose ISO week equals the row's
bucket) has ProbGreen + ProbRed = 100, and a bucket with zero
observations has ProbGreen, ProbRed, AvgReturn and AvgRange all exactly
0; every session profile row likewise has ProbGreen + ProbRed = 100 (its
rows only exist for observed groups); and the underlying probability
computation returns (0, 0) on empty input (its division is guarded by
the emptiness test). -/
theorem build_prob_completeness :
    probs [] = (0, 0) ∧
    (∀ (bars : List Bar) (start stop : Date) (r : PRow),
      r ∈ WeekOfYear.build bars start stop →
      (0 < ((WeekOfYear.dfOf bars start stop).filter
          (fun b => isoWeek b.date = r.bucket)).length →
        r.probGreen + r.probRed = 100) ∧
      (((WeekOfYear.dfOf bars start stop).filter
          (fun b => isoWeek b.date = r.bucket)).length = 0 →
        r.probGreen = 0 ∧ r.probRed = 0 ∧ r.avgReturn = 0 ∧ r.avgRange = 0)) ∧
    (∀ (eastern : Date → Nat → Nat × Nat) (bars : List Session.HBar)
        (start stop : Date × Nat) (view : String) (r : Session.SRow),
      r ∈ Session.build eastern bars start stop view →
      r.probGreen + r.probRed = 100) := by
  refine ⟨by decide, ?_, fun _ _ _ _ _ _ h => session_build_prob h⟩
  intro bars start stop r h
  rcases WeekOfYear.build_mem_decomp h with ⟨r', hr', hbk, hpg, hpr, har, hag⟩
  rcases mem_ensure hr' with ⟨hmem, hcase⟩
  rcases hcase with ⟨hnil, hz⟩ | hrows
  · -- the bucket was absent from the aggregated rows: its group is empty
    have hcnt : (WeekOfYear.dfOf bars start stop).filter
        (fun b => isoWeek b.date = r.bucket) = [] := by
      rw [List.filter_eq_nil_iff]
      intro x hx hxw
      have hxw' : isoWeek x.date = r'.bucket :=
        hbk ▸ of_decide_eq_true hxw
      have hkey : r'.bucket ∈ (WeekOfYear.dfOf bars start stop).map (fun b => isoWeek b.date) :=
        List.mem_map.mpr ⟨x, hx, hxw'⟩
      have hkey' : r'.bucket ∈ (WeekOfYear.rowsOf bars start stop).map PRow.bucket := by
        rw [WeekOfYear.rowsOf_buckets]
        exact mem_sortedKeys.mpr hkey
      rcases List.mem_map.mp hkey' with ⟨t, ht, htb⟩
      have : t ∈ (WeekOfYear.rowsOf bars start stop).filter
          (fun u : PRow => u.bucket = r'.bucket) :=
        List.mem_filter.mpr ⟨ht, decide_eq_true htb⟩
      rw [hnil] at this
      exact absurd this (List.not_mem_nil t)
    rw [hcnt]
    exact ⟨fun h0 => absurd h0 (by simp), fun _ => ⟨hpg ▸ hz.1, hpr ▸ hz.2.1,
      har ▸ hz.2.2.1, hag ▸ hz.2.2.2⟩⟩
  · -- the row aggregates a nonempty group of its bucket
    unfold WeekOfYear.rowsOf at hrows
    rcases List.mem_map.mp hrows with ⟨kg, hkg, hb⟩
    rcases mem_groupBy hkg with ⟨hk1, hk2⟩
    have hkb : kg.1 = r'.bucket :=
      (WeekOfYear.buildRow_bucket kg.1 kg.2).symm.trans (congrArg PRow.bucket hb)
    rcases List.mem_map.mp (mem_sortedKeys.mp hk1) with ⟨x, hx, hxk⟩
    have hxg : x ∈ (WeekOfYear.dfOf bars start stop).filter
        (fun b => isoWeek b.date = kg.1) :=
      List.mem_filter.mpr ⟨hx, decide_eq_true hxk⟩
    have hgne : kg.2 ≠ [] := by
      rw [hk2]
      intro hc
      rw [hc] at hxg
      exact absurd hxg (List.not_mem_nil x)
    constructor
    · intro _
      rw [hpg, hpr, ← hb]
      have hfl : kg.2.map (fun b : Bar => flag b.bopen b.close) ≠ [] := by
        simpa using hgne
      exact probs_sum_100 hfl
    · intro h0
      have : kg.2 = [] := by
        rw [hk2, hkb]
        exact List.length_eq_zero.mp (hbk ▸ h0)
      exact absurd this hgne

/-- Claim C2, witness: instantiated on one green bar of 2024-01-03
(ISO week 1) and the first output row (bucket 1). -/
theorem build_prob_completeness_witness :
    (0 < ((WeekOfYear.dfOf [⟨⟨2024, 1, 3⟩, 1, 2, 1, 2⟩] ⟨2024, 1, 1⟩ ⟨2024, 12, 31⟩).filter
        (fun b => isoWeek b.date =
          ((WeekOfYear.build [⟨⟨2024, 1, 3⟩, 1, 2, 1, 2⟩]
              ⟨2024, 1, 1⟩ ⟨2024, 12, 31⟩).headD (fillRow 99)).bucket)).length →
      ((WeekOfYear.build [⟨⟨2024, 1, 3⟩, 1, 2, 1, 2⟩]
          ⟨2024, 1, 1⟩ ⟨2024, 12, 31⟩).headD (fillRow 99)).probGreen +
        ((WeekOfYear.build [⟨⟨2024, 1, 3⟩, 1, 2, 1, 2⟩]
          ⟨2024, 1, 1⟩ ⟨2024, 12, 31⟩).headD (fillRow 99)).probRed = 100) ∧
    (((WeekOfYear.dfOf [⟨⟨2024, 1, 3⟩, 1, 2, 1, 2⟩] ⟨2024, 1, 1⟩ ⟨2024, 12, 31⟩).filter
        (fun b => isoWeek b.date =
          ((WeekOfYear.build [⟨⟨2024, 1, 3⟩, 1, 2, 1, 2⟩]
              ⟨2024, 1, 1⟩ ⟨2024, 12, 31⟩).headD (fillRow 99)).bucket)).length = 0 →
      ((WeekOfYear.build [⟨⟨2024, 1, 3⟩, 1, 2, 1, 2⟩]
          ⟨2024, 1, 1⟩ ⟨2024, 12, 31⟩).headD (fillRow 99)).probGreen = 0 ∧
      ((WeekOfYear.build [⟨⟨2024, 1, 3⟩, 1, 2, 1, 2⟩]
          ⟨2024, 1, 1⟩ ⟨2024, 12, 31⟩).headD (fillRow 99)).probRed = 0 ∧
      ((WeekOfYear.build [⟨⟨2024, 1, 3⟩, 1, 2, 1, 2⟩]
          ⟨2024, 1, 1⟩ ⟨2024, 12, 31⟩).headD (fillRow 99)).avgReturn = 0 ∧
      ((WeekOfYear.build [⟨⟨2024, 1, 3⟩, 1, 2, 1, 2⟩]
          ⟨2024, 1, 1⟩ ⟨2024, 12, 31⟩).headD (fillRow 99)).avgRange = 0) :=
  build_prob_completeness.2.1 [⟨⟨2024, 1, 3⟩, 1, 2, 1, 2⟩]
    ⟨2024, 1, 1⟩ ⟨2024, 12, 31⟩
    ((WeekOfYear.build [⟨⟨2024, 1, 3⟩, 1, 2, 1, 2⟩]
        ⟨2024, 1, 1⟩ ⟨2024, 12, 31⟩).headD (fillRow 99))
    (headD_mem (fillRow 99) (WeekOfYear.build_ne_nil _ _ _))

/-- Claim C5: the three session windows partition the 24-hour day: every
hour 0–23 lies in exactly one window of `SESSION_TIMES`, the classifier
always returns a session (its `None` branch is unreachable for clock
hours), and the session it returns is the one whose window matched. -/
theorem session_windows_partition :
    ∀ h : Nat, h < 24 →
      (Session.SESSION_TIMES.filter
          (fun st => Session.inSessionWindow st h)).length = 1 ∧
      (Session.determine_session h).isSome = true ∧
      ∀ st ∈ Session.SESSION_TIMES, Session.inSessionWindow st h = true →
        Session.determine_session h = some st.1 := by
  decide

/-- Claim C5, witness: instantiated at hour 5 (a London-session hour). -/
theorem session_windows_partition_witness :
    (Session.SESSION_TIMES.filter
        (fun st => Session.inSessionWindow st 5)).length = 1 ∧
    (Session.determine_session 5).isSome = true ∧
    ∀ st ∈ Session.SESSION_TIMES, Session.inSessionWindow st 5 = true →
      Session.determine_session 5 = some st.1 :=
  session_windows_partition 5 (by decide)

/-- Claim C3: evidence for the code bug — the tab-level composite
averager seeds its synthetic pattern generator from the invocation date,
so the RNG seed (and hence the generated output) differs between two
calls made with identical arguments on consecutive days. -/
theorem composite_tab_seed_differs_across_days :
    CyclicalProfiles.global_seed 2025 3 15 ≠
      CyclicalProfiles.global_seed 2025 3 16 := by
  decide

/-! ## Calendar lemmas for the seasonality claims -/

theorem monthDays_le_31 (leap : Bool) (m : Nat) : monthDays leap m ≤ 31 := by
  unfold monthDays
  split <;> first | omega | (split <;> omega)

theorem doyAux_after_feb28 :
    ∀ m ∈ List.range 13, ∀ d ∈ List.range 32,
      1 ≤ m → 1 ≤ d → d ≤ monthDays true m →
      ((2 < m ∨ (m = 2 ∧ 28 < d)) ↔ 59 < doyAux true m d) := by
  decide

theorem doyAux_eq_60 :
    ∀ m ∈ List.range 13, ∀ d ∈ List.range 32,
      1 ≤ m → 1 ≤ d → d ≤ monthDays true m →
      (if 59 < doyAux true m d then doyAux true m d - 1
        else doyAux true m d) = 60 →
      m = 3 ∧ d = 1 := by
  decide

theorem adjusted_dec31 (y : Nat) :
    Seasonality.adjustedDayOfYear ⟨y, 12, 31⟩ = 365 := by
  cases hl : isLeap y <;>
    simp only [Seasonality.adjustedDayOfYear, Date.doy, hl] <;> decide

theorem adjusted_after_feb28 {y m d : Nat} (hl : isLeap y = true)
    (hm1 : 1 ≤ m) (hm2 : m ≤ 12) (hd1 : 1 ≤ d)
    (hdm : d ≤ monthDays true m)
    (haft : 2 < m ∨ (m = 2 ∧ 28 < d)) :
    Seasonality.adjustedDayOfYear ⟨y, m, d⟩ + 1 = Date.doy ⟨y, m, d⟩ := by
  have hle := monthDays_le_31 true m
  have h59 := (doyAux_after_feb28 m (List.mem_range.mpr (by omega))
    d (List.mem_range.mpr (by omega)) hm1 hd1 hdm).mp haft
  have hdoy : Date.doy ⟨y, m, d⟩ = doyAux true m d := by
    simp [Date.doy, hl]
  simp only [Seasonality.adjustedDayOfYear, hdoy, hl, Bool.true_and,
    decide_eq_true_eq, if_pos h59]
  omega

/-! ## Row-shape lemma for the seasonality calculator -/

theorem seas_mem {bars : List Seasonality.SeasBar} {yb : Nat} {rt : String}
    {cutoff : Option Date} {r : Seasonality.SeasRow}
    (h : r ∈ Seasonality.calculate_seasonality bars yb rt cutoff) :
    r.doy = Seasonality.adjustedDayOfYear r.date ∧
      r.year = r.date.year ∧ r.month = r.date.month ∧ r.day = r.date.day := by
  simp only [Seasonality.calculate_seasonality] at h
  rcases List.mem_map.mp h with ⟨br, _, rfl⟩
  exact ⟨rfl, rfl, rfl, rfl⟩

/-- Claim C6: in the seasonality annotation, every valid date after
Feb 28 of a leap year has its DayOfYear decremented by one (so the
annotated DayOfYear plus 1 recovers the raw `dayofyear`), and Dec 31 of
every year — leap or not — maps to DayOfYear 365. -/
theorem seasonality_leap_normalization :
    ∀ (bars : List Seasonality.SeasBar) (yb : Nat) (rt : String)
      (cutoff : Option Date) (r : Seasonality.SeasRow),
      r ∈ Seasonality.calculate_seasonality bars yb rt cutoff →
      r.date.Valid →
      ((isLeap r.date.year = true ∧
          (2 < r.date.month ∨ (r.date.month = 2 ∧ 28 < r.date.day))) →
        r.doy + 1 = r.date.doy) ∧
      ((r.date.month = 12 ∧ r.date.day = 31) → r.doy = 365) := by
  intro bars yb rt cutoff r h hv
  have hdoy := (seas_mem h).1
  have heta : r.date = ⟨r.date.year, r.date.month, r.date.day⟩ := rfl
  rcases hv with ⟨hm1, hm2, hd1, hdm⟩
  constructor
  · rintro ⟨hl, haft⟩
    rw [hdoy, heta]
    exact adjusted_after_feb28 hl hm1 hm2 hd1 (by rwa [hl] at hdm) haft
  · rintro ⟨h12, h31⟩
    rw [hdoy, heta, h12, h31, adjusted_dec31]

/-- Claim C6, witness: instantiated on a single bar dated 2024-12-31 (a
leap year) and the first annotated row. -/
theorem seasonality_leap_normalization_witness :
    ((isLeap Demo.decRow.date.year = true ∧
        (2 < Demo.decRow.date.month ∨
          (Demo.decRow.date.month = 2 ∧ 28 < Demo.decRow.date.day))) →
      Demo.decRow.doy + 1 = Demo.decRow.date.doy) ∧
    ((Demo.decRow.date.month = 12 ∧ Demo.decRow.date.day = 31) →
      Demo.decRow.doy = 365) :=
  seasonality_leap_normalization [Demo.decBar] 10 "open-close" none
    Demo.decRow (headD_mem _ (by decide)) (by decide)

/-! ## Length and date lemmas for the seasonality calculator -/

theorem closeCloseRets_length (l : List Seasonality.SeasBar) :
    (Seasonality.closeCloseRets l).length = l.length := by
  cases l with
  | nil => rfl
  | cons b rest =>
      simp [Seasonality.closeCloseRets]

theorem calc_seasonality_dates (bars : List Seasonality.SeasBar)
    (yb : Nat) (rt : String) (cutoff : Option Date) :
    (Seasonality.calculate_seasonality bars yb rt cutoff).map
        (fun r => r.date) =
      (Seasonality.filterBars bars yb cutoff).map (fun b => b.date) := by
  unfold Seasonality.calculate_seasonality
  rw [List.map_map]
  have hlen : (Seasonality.filterBars bars yb cutoff).length ≤
      (if rt = "open-close" then
        (Seasonality.filterBars bars yb cutoff).map
          (fun b => some ((b.close - b.bopen) / b.bopen * 100))
      else Seasonality.closeCloseRets
        (Seasonality.filterBars bars yb cutoff)).length := by
    split
    · simp
    · rw [closeCloseRets_length]
  calc ((Seasonality.filterBars bars yb cutoff).zip _).map _
      = (((Seasonality.filterBars bars yb cutoff).zip _).map Prod.fst).map
          (fun b => b.date) := by rw [List.map_map]; rfl
    _ = (Seasonality.filterBars bars yb cutoff).map (fun b => b.date) := by
          rw [List.map_fst_zip _ _ hlen]

theorem mem_filterBars {bars : List Seasonality.SeasBar} {yb : Nat}
    {cd : Date} {b : Seasonality.SeasBar} :
    b ∈ Seasonality.filterBars bars yb (some cd) ↔
      b ∈ bars ∧ dateLe b.date cd = true ∧
        Seasonality.complete_year - yb ≤ b.date.year := by
  unfold Seasonality.filterBars
  constructor
  · intro h
    have h2 := List.mem_filter.mp h
    have h1 := List.mem_filter.mp h2.1
    exact ⟨h1.1, h1.2, of_decide_eq_true h2.2⟩
  · rintro ⟨hb, hle, hy⟩
    exact List.mem_filter.mpr
      ⟨List.mem_filter.mpr ⟨hb, hle⟩, decide_eq_true hy⟩

/-- Claim C7 (amended): with a cutoff given, `calculateSeasonality`
retains exactly the bars with timestamp ≤ cutoffDate whose calendar year
is at least `complete_year − yearsBack` (the year-granular lower bound
anchored at the configured complete year, not at the cutoff date): every
annotated row satisfies both conditions, and every input bar satisfying
both appears among the annotated dates. -/
theorem seasonality_retention :
    ∀ (bars : List Seasonality.SeasBar) (yb : Nat) (rt : String) (cd : Date),
      (∀ r : Seasonality.SeasRow,
        r ∈ Seasonality.calculate_seasonality bars yb rt (some cd) →
        dateLe r.date cd = true ∧
          Seasonality.complete_year - yb ≤ r.date.year) ∧
      (∀ b : Seasonality.SeasBar, b ∈ bars →
        dateLe b.date cd = true →
        Seasonality.complete_year - yb ≤ b.date.year →
        ∃ r : Seasonality.SeasRow,
          r ∈ Seasonality.calculate_seasonality bars yb rt (some cd) ∧
            r.date = b.date) := by
  intro bars yb rt cd
  constructor
  · intro r hr
    have hd : r.date ∈ (Seasonality.calculate_seasonality bars yb rt
        (some cd)).map (fun t => t.date) :=
      List.mem_map.mpr ⟨r, hr, rfl⟩
    rw [calc_seasonality_dates] at hd
    rcases List.mem_map.mp hd with ⟨b, hb, hbd⟩
    rcases mem_filterBars.mp hb with ⟨_, hle, hy⟩
    rw [← hbd]
    exact ⟨hle, hy⟩
  · intro b hb hle hy
    have hbf : b ∈ Seasonality.filterBars bars yb (some cd) :=
      mem_filterBars.mpr ⟨hb, hle, hy⟩
    have hd : b.date ∈ (Seasonality.filterBars bars yb (some cd)).map
        (fun t => t.date) := List.mem_map.mpr ⟨b, hbf, rfl⟩
    rw [← calc_seasonality_dates bars yb rt (some cd)] at hd
    rcases List.mem_map.mp hd with ⟨r, hr, hrd⟩
    exact ⟨r, hr, hrd⟩

/-- Claim C7, witness: the retained first row for a 2014-03-01 bar with
cutoff 2024-06-15 and 10 years back satisfies the code's two filter
conditions. -/
theorem seasonality_retention_witness :
    dateLe Demo.earlyRow.date Demo.cd0 = true ∧
      Seasonality.complete_year - 10 ≤ Demo.earlyRow.date.year :=
  (seasonality_retention [Demo.earlyBar] 10 "open-close" Demo.cd0).1
    Demo.earlyRow (headD_mem _ (by decide))

/-- Claim C7, counterexample to the claim as stated: with cutoff
2024-06-15 and yearsBack = 10, the bar dated 2014-03-01 is retained
(it is the single annotated row) even though its timestamp lies strictly
before cutoffDate − yearsBack = 2014-06-15, i.e. outside the claimed
closed interval. -/
theorem seasonality_retention_counterexample :
    (Seasonality.calculate_seasonality [Demo.earlyBar] 10 "open-close"
        (some Demo.cd0)).map (fun r => r.date) = [⟨2014, 3, 1⟩] ∧
      dateLe (Seasonality.cutoffMinusYears Demo.cd0 10) ⟨2014, 3, 1⟩ = false := by
  constructor
  · decide
  · decide

/-- Claim C8 (amended): under the close-close method the first row of
the filtered series is retained in the annotated output with a missing
(undefined) Return — it is not dropped: the output has exactly as many
rows as the filtered input, and its first row's Return is `none`. -/
theorem seasonality_close_close_first_row :
    ∀ (bars : List Seasonality.SeasBar) (yb : Nat) (cutoff : Option Date),
      (Seasonality.calculate_seasonality bars yb "close-close" cutoff).length =
        (Seasonality.filterBars bars yb cutoff).length ∧
      ∀ r : Seasonality.SeasRow,
        (Seasonality.calculate_seasonality bars yb "close-close"
          cutoff).head? = some r → r.ret = none := by
  intro bars yb cutoff
  have hne : ("close-close" = "open-close") = False := by simp
  constructor
  · unfold Seasonality.calculate_seasonality
    simp only [hne, if_false]
    rw [List.length_map, List.length_zip, closeCloseRets_length]
    simp
  · intro r hr
    unfold Seasonality.calculate_seasonality at hr
    simp only [hne, if_false] at hr
    cases hdf : Seasonality.filterBars bars yb cutoff with
    | nil => rw [hdf] at hr; simp [Seasonality.closeCloseRets] at hr
    | cons b rest =>
        rw [hdf] at hr
        simp only [Seasonality.closeCloseRets, List.zip_cons_cons,
          List.map_cons, List.head?_cons, Option.some.injEq] at hr
        rw [← hr]

/-- Claim C8, witness: for two consecutive January-2024 bars the output
length equals the filtered length (2) and the first row's Return is
missing. -/
theorem seasonality_close_close_first_row_witness :
    Demo.ccRow.ret = none :=
  (seasonality_close_close_first_row Demo.ccBars 10 none).2
    Demo.ccRow (by decide)

/-- Claim C8, counterexample to the claim as stated: under close-close
the two-bar input yields two annotated rows — the first row (2024-01-02,
with undefined return) is retained, not dropped. -/
theorem seasonality_close_close_counterexample :
    (Seasonality.calculate_seasonality Demo.ccBars 10 "close-close"
        none).length = 2 ∧
      ((Seasonality.calculate_seasonality Demo.ccBars 10 "close-close"
        none).map (fun r => r.date)).head? = some ⟨2024, 1, 2⟩ ∧
      ((Seasonality.calculate_seasonality Demo.ccBars 10 "close-close"
        none).map (fun r => r.ret)).head? = some none := by
  refine ⟨by decide, by decide, by decide⟩

/-- Claim C10: in a leap year the seasonality annotation maps both
Feb 28 (raw day-of-year 59) and Feb 29 (raw 60, decremented) to
DayOfYear 59, so two bars of one year can share a DayOfYear; and a
leap-year annotated DayOfYear of 60 is produced only by Mar 1. -/
theorem seasonality_leap_day60 :
    (∀ (bars : List Seasonality.SeasBar) (yb : Nat) (rt : String)
        (cutoff : Option Date) (r : Seasonality.SeasRow),
      r ∈ Seasonality.calculate_seasonality bars yb rt cutoff →
      r.date.Valid → isLeap r.date.year = true →
      r.doy = 60 → r.date.month = 3 ∧ r.date.day = 1) ∧
    (∀ y : Nat, isLeap y = true →
      Seasonality.adjustedDayOfYear ⟨y, 2, 28⟩ = 59 ∧
        Seasonality.adjustedDayOfYear ⟨y, 2, 29⟩ = 59) := by
  constructor
  · intro bars yb rt cutoff r h hv hl h60
    have hdoy := (seas_mem h).1
    rcases hv with ⟨hm1, hm2, hd1, hdm⟩
    rw [hl] at hdm
    rw [hdoy] at h60
    have hadj : (if 59 < doyAux true r.date.month r.date.day then
        doyAux true r.date.month r.date.day - 1
        else doyAux true r.date.month r.date.day) = 60 := by
      simpa [Seasonality.adjustedDayOfYear, Date.doy, hl] using h60
    have hle := monthDays_le_31 true r.date.month
    exact doyAux_eq_60 r.date.month (List.mem_range.mpr (by omega))
      r.date.day (List.mem_range.mpr (by omega)) hm1 hd1 hdm hadj
  · intro y hl
    constructor <;>
      simp only [Seasonality.adjustedDayOfYear, Date.doy, hl] <;> decide

/-- Claim C10, witness: the annotated row of a 2024-03-01 bar has
DayOfYear 60 and is indeed Mar 1; and in 2024, Feb 28 and Feb 29 both
map to 59. -/
theorem seasonality_leap_day60_witness :
    (Demo.marRow.date.month = 3 ∧ Demo.marRow.date.day = 1) ∧
    (Seasonality.adjustedDayOfYear ⟨2024, 2, 28⟩ = 59 ∧
      Seasonality.adjustedDayOfYear ⟨2024, 2, 29⟩ = 59) :=
  ⟨seasonality_leap_day60.1 [Demo.marBar] 10 "open-close" none Demo.marRow
      (headD_mem _ (by decide)) (by decide) (by decide) (by decide),
    seasonality_leap_day60.2 2024 (by decide)⟩

/-! ## Lemmas about the composite averager -/

namespace Composite

theorem lookup_setPairs_same (l : List (String × ℚ)) (c : String) (v : ℚ) :
    (setPairs l c v).lookup c = some v := by
  induction l with
  | nil => simp [setPairs, List.lookup]
  | cons p rest ih =>
      rcases p with ⟨c', v'⟩
      unfold setPairs
      by_cases h : c' = c
      · rw [if_pos h]
        simp [List.lookup]
      · rw [if_neg h]
        simp only [List.lookup]
        have : (c == c') = false := by
          simp [Ne.symm h]
        rw [this, ih]

theorem lookup_setPairs_other (l : List (String × ℚ)) (c d : String) (v : ℚ)
    (h : c ≠ d) : (setPairs l c v).lookup d = l.lookup d := by
  induction l with
  | nil =>
      have hdc : (d == c) = false := by simp [Ne.symm h]
      simp [setPairs, List.lookup, hdc]
  | cons p rest ih =>
      rcases p with ⟨c', v'⟩
      unfold setPairs
      by_cases hc : c' = c
      · rw [if_pos hc]
        simp only [List.lookup]
        have h1 : (d == c) = false := by simp [Ne.symm h]
        have h2 : (d == c') = false := by simp [hc ▸ Ne.symm h]
        rw [h1, h2]
      · rw [if_neg hc]
        simp only [List.lookup]
        cases hdc : (d == c') with
        | true => rfl
        | false => exact ih

theorem getVal_setVal_same (r : CRow) (c : String) (v : ℚ) :
    getVal (setVal r c v) c = v := by
  unfold getVal setVal
  simp [lookup_setPairs_same]

theorem getVal_setVal_other (r : CRow) (c d : String) (v : ℚ) (h : c ≠ d) :
    getVal (setVal r c v) d = getVal r d := by
  unfold getVal setVal
  simp [lookup_setPairs_other _ _ _ _ h]

theorem setVal_label (r : CRow) (c : String) (v : ℚ) :
    (setVal r c v).label = r.label := rfl

/-- The metric-column update loop of `transformRow`, with the row's
group label fixed to `L`. -/
def setCols (df : CTable) (n : Nat) (L : Int) (ms : List String)
    (acc : CRow) : CRow :=
  ms.foldl (fun acc c =>
    if c ∈ df.cols then
      setVal acc c (qmean (tailN n (groupColVals df.rows L c)))
    else acc) acc

theorem transformRow_eq_setCols (df : CTable) (n : Nat) (ms : List String)
    (r : CRow) : transformRow df n ms r = setCols df n r.label ms r := rfl

theorem setCols_label (df : CTable) (n : Nat) (L : Int) :
    ∀ (ms : List String) (acc : CRow), (setCols df n L ms acc).label = acc.label
  | [], _ => rfl
  | c :: cs, acc => by
      unfold setCols
      rw [List.foldl_cons]
      split
      · exact (setCols_label df n L cs _).trans (setVal_label acc c _)
      · exact setCols_label df n L cs acc

theorem transformRow_label (df : CTable) (n : Nat) (ms : List String)
    (r : CRow) : (transformRow df n ms r).label = r.label := by
  rw [transformRow_eq_setCols]
  exact setCols_label df n r.label ms r

theorem setCols_getVal_notin (df : CTable) (n : Nat) (L : Int) :
    ∀ (ms : List String) (acc : CRow) (c : String), c ∉ ms →
      getVal (setCols df n L ms acc) c = getVal acc c
  | [], _, _, _ => rfl
  | c0 :: cs, acc, c, hc => by
      have hne : c0 ≠ c := fun h => hc (h ▸ List.mem_cons_self c0 cs)
      have hcs : c ∉ cs := fun h => hc (List.mem_cons_of_mem c0 h)
      unfold setCols
      rw [List.foldl_cons]
      split
      · exact (setCols_getVal_notin df n L cs _ c hcs).trans
          (getVal_setVal_other acc c0 c _ hne)
      · exact setCols_getVal_notin df n L cs acc c hcs

theorem setCols_getVal (df : CTable) (n : Nat) (L : Int) :
    ∀ (ms : List String) (acc : CRow) (c : String), c ∈ ms → c ∈ df.cols →
      getVal (setCols df n L ms acc) c =
        qmean (tailN n (groupColVals df.rows L c))
  | [], _, _, hc, _ => absurd hc (List.not_mem_nil _)
  | c0 :: cs, acc, c, hc, hcol => by
      unfold setCols
      rw [List.foldl_cons]
      by_cases hmem : c ∈ cs
      · split
        · exact setCols_getVal df n L cs _ c hmem hcol
        · exact setCols_getVal df n L cs acc c hmem hcol
      · have hc0 : c0 = c := by
          rcases List.mem_cons.mp hc with h | h
          · exact h.symm
          · exact absurd h hmem
        subst hc0
        rw [if_pos hcol]
        exact (setCols_getVal_notin df n L cs _ c0 hmem).trans
          (getVal_setVal_same acc c0 _)

theorem transformRow_getVal (df : CTable) (n : Nat) (ms : List String)
    (r : CRow) (c : String) (hc : c ∈ ms) (hcol : c ∈ df.cols) :
    getVal (transformRow df n ms r) c =
      qmean (tailN n (groupColVals df.rows r.label c)) := by
  rw [transformRow_eq_setCols]
  exact setCols_getVal df n r.label ms r c hc hcol

theorem find?_dropDupAux (seen : List Int) (l : List CRow) (u : Int)
    (hu : u ∉ seen) :
    (dropDupAux seen l).find? (fun r => r.label = u) =
      l.find? (fun r => r.label = u) := by
  induction l generalizing seen with
  | nil => rfl
  | cons r rs ih =>
      unfold dropDupAux
      by_cases hr : r.label ∈ seen
      · rw [if_pos hr]
        have hne : ¬(r.label = u) := fun h => hu (h ▸ hr)
        rw [List.find?_cons_of_neg _ (by simpa using hne), ih seen hu]
      · rw [if_neg hr]
        by_cases hru : r.label = u
        · rw [List.find?_cons_of_pos _ (by simpa using hru),
            List.find?_cons_of_pos _ (by simpa using hru)]
        · rw [List.find?_cons_of_neg _ (by simpa using hru),
            List.find?_cons_of_neg _ (by simpa using hru)]
          exact ih (r.label :: seen) (by
            simp only [List.mem_cons, not_or]
            exact ⟨fun h => hru (h.symm), hu⟩)

theorem tailN_of_le {α : Type} (n : Nat) (l : List α) (h : l.length ≤ n) :
    tailN n l = l := by
  unfold tailN
  rw [Nat.sub_eq_zero_of_le h, List.drop_zero]

end Composite

/-- Claim C4: for every horizon of the configured periods table other
than min-cycle, the composite averager sets each requested metric column
(present in the frame) of each unit appearing in the history to the
arithmetic mean of that unit's last N recorded instances in input order;
with fewer than N instances the value is the mean of all available
instances, and no error is raised (the function is total). -/
theorem composite_trailing_mean :
    ∀ (df : Composite.CTable) (pk ct : String) (ms : List String)
      (n : Nat) (u : Int) (c : String),
      (Composite.get_composite_periods pk).lookup ct = some n →
      ct ≠ "Min Cycle" →
      c ∈ ms → c ∈ df.cols →
      (∃ r ∈ df.rows, r.label = u) →
      ∃ r' : Composite.CRow,
        (Composite.calculate_composite_average df pk ct ms).rows.find?
            (fun r => r.label = u) = some r' ∧
        Composite.getVal r' c =
          qmean (Composite.tailN n (Composite.groupColVals df.rows u c)) ∧
        ((Composite.groupColVals df.rows u c).length ≤ n →
          Composite.getVal r' c =
            (Composite.groupColVals df.rows u c).sum /
              (Composite.groupColVals df.rows u c).length) := by
  intro df pk ct ms n u c hn hmc hcm hcc hex
  rcases hex with ⟨r0, hr0, hr0u⟩
  have hps : (df.rows.isEmpty = true) = False := by
    cases hrows : df.rows with
    | nil => rw [hrows] at hr0; exact absurd hr0 (List.not_mem_nil r0)
    | cons a as => simp
  unfold Composite.calculate_composite_average
  simp only [hps, if_false, hn, hmc, Option.isNone_some, Bool.false_or,
    decide_eq_true_eq, if_neg hmc, Option.getD_some]
  have hfind : ∃ r1, df.rows.find? (fun r => r.label = u) = some r1 := by
    have : (df.rows.find? (fun r => r.label = u)).isSome := by
      rw [List.find?_isSome]
      exact ⟨r0, hr0, by simpa using hr0u⟩
    exact Option.isSome_iff_exists.mp this
  rcases hfind with ⟨r1, hr1⟩
  have hr1u : r1.label = u := by
    have := List.find?_some hr1
    simpa using this
  refine ⟨Composite.transformRow df n ms r1, ?_, ?_, ?_⟩
  · rw [Composite.find?_dropDupAux [] _ u (List.not_mem_nil u)]
    rw [List.find?_map]
    have hpred : ((fun r : Composite.CRow => decide (r.label = u)) ∘
        Composite.transformRow df n ms) = fun r => decide (r.label = u) := by
      funext r
      simp [Composite.transformRow_label]
    rw [hpred, hr1]
    rfl
  · rw [Composite.transformRow_getVal df n ms r1 c hcm hcc, hr1u]
  · intro hlen
    rw [Composite.transformRow_getVal df n ms r1 c hcm hcc, hr1u,
      Composite.tailN_of_le n _ hlen]
    rfl

/-- Claim C4, witness: for the quarter profile's "3 Years" horizon
(N = 3) and unit 2 with only two recorded instances (20, 40), the
output value is their mean 30 — graceful degradation, no error. -/
theorem composite_trailing_mean_witness :
    ∃ r' : Composite.CRow,
      (Composite.calculate_composite_average Demo.cTab "quarter" "3 Years"
          ["AvgReturn"]).rows.find? (fun r => r.label = 2) = some r' ∧
      Composite.getVal r' "AvgReturn" =
        qmean (Composite.tailN 3
          (Composite.groupColVals Demo.cTab.rows 2 "AvgReturn")) ∧
      ((Composite.groupColVals Demo.cTab.rows 2 "AvgReturn").length ≤ 3 →
        Composite.getVal r' "AvgReturn" =
          (Composite.groupColVals Demo.cTab.rows 2 "AvgReturn").sum /
            (Composite.groupColVals Demo.cTab.rows 2 "AvgReturn").length) :=
  composite_trailing_mean Demo.cTab "quarter" "3 Years" ["AvgReturn"] 3 2
    "AvgReturn" (by decide) (by decide) (by decide) (by decide)
    ⟨Demo.cRow 2 20, by decide, by decide⟩

end Gold
